import Mathlib

/-!
Verification of the flexiv_rdk real-time scheduler specification.

The repository sources under verification are the scheduler test programs
(test_scheduler.cpp, test_timeliness_monitor.cpp) and a real-time control
example.  The flexiv::Scheduler and timeliness-monitor implementations are
shipped as a closed library: only their declarations and callers appear in
the repository, so those components are modelled from the specification
(each such definition carries a doc comment starting with
"Modelled from the spec:").  Everything else is embedded directly from the
C++ sources.
-/

namespace FlexivRDK

/-! ## Embedding of test_scheduler.cpp: highPriorityTask counter logic

The callback keeps a static `loop_counter` and a global atomic flag
`g_stop_sched`.  Each invocation executes
`if (++loop_counter > 5000) \x7b loop_counter = 0; g_stop_sched = true; \x7d`.
State is the pair (loop_counter, g_stop_sched). -/

/-- Embedding of the counter/flag mutation performed by one invocation of
highPriorityTask (test_scheduler.cpp lines 55-58). -/
def hpCounterStep (s : Nat × Bool) : Nat × Bool :=
  let c := s.1 + 1
  if c > 5000 then (0, true) else (c, s.2)

/-! ## Embedding of test_scheduler.cpp: lock discipline of the two callbacks

Each callback body is transcribed as the ordered list of its actions, with
accesses to the shared `g_data.measured_interval` and the `g_mutex`
acquire/release made explicit; all other statements are `other`. -/

/-- Action kinds appearing in the callback bodies of test_scheduler.cpp. -/
inductive TSAction
  /-- Acquiring g_mutex (construction of the lock_guard). -/
  | lockAcquire
  /-- Releasing g_mutex (end of the lock_guard scope). -/
  | lockRelease
  /-- Writing the shared g_data.measured_interval. -/
  | sharedWrite
  /-- Reading the shared g_data.measured_interval. -/
  | sharedRead
  /-- Any statement not touching the shared data or the mutex. -/
  | other
deriving DecidableEq, Repr

/-- Embedding of the body of highPriorityTask (test_scheduler.cpp lines
40-62): mark loop end point, compute the interval, lock, write the shared
value, unlock, counter/flag logic, mark loop start point. -/
def highPriorityTaskActions : List TSAction :=
  [TSAction.other,        -- auto toc = now()
   TSAction.other,        -- compute measured_interval
   TSAction.lockAcquire,  -- lock_guard(g_mutex)
   TSAction.sharedWrite,  -- g_data.measured_interval = measured_interval
   TSAction.lockRelease,  -- end of lock_guard scope
   TSAction.other,        -- counter increment and stop-flag logic
   TSAction.other]        -- tic = now()

/-- Embedding of the body of lowPriorityTask (test_scheduler.cpp lines
70-91): lock, read the shared value, unlock, average computation, log. -/
def lowPriorityTaskActions : List TSAction :=
  [TSAction.lockAcquire,  -- lock_guard(g_mutex)
   TSAction.sharedRead,   -- measured_interval = g_data.measured_interval
   TSAction.lockRelease,  -- end of lock_guard scope
   TSAction.other,        -- accumulate and average
   TSAction.other]        -- log.Info(...)

/-- Checker for the shared-data locking contract: scanning the action list
with the lock-held flag and the number of shared copies done in the current
critical section, it requires that every shared access happens under the
lock, that each critical section performs exactly one shared copy and
nothing else, and that the lock is released by the end. -/
def lockDisciplineFrom : Bool → Nat → List TSAction → Bool
  | false, _, [] => true
  | true, _, [] => false
  | false, _, TSAction.lockAcquire :: rest => lockDisciplineFrom true 0 rest
  | false, _, TSAction.other :: rest => lockDisciplineFrom false 0 rest
  | false, _, TSAction.lockRelease :: _ => false
  | false, _, TSAction.sharedWrite :: _ => false
  | false, _, TSAction.sharedRead :: _ => false
  | true, n, TSAction.sharedWrite :: rest => lockDisciplineFrom true (n + 1) rest
  | true, n, TSAction.sharedRead :: rest => lockDisciplineFrom true (n + 1) rest
  | true, n, TSAction.lockRelease :: rest =>
      if n = 1 then lockDisciplineFrom false 0 rest else false
  | true, _, TSAction.lockAcquire :: _ => false
  | true, _, TSAction.other :: _ => false

/-- Top-level lock-discipline check starting outside any critical section. -/
def lockDisciplined (acts : List TSAction) : Bool :=
  lockDisciplineFrom false 0 acts

/-! ## Embedding of test_timeliness_monitor.cpp: PeriodicTask

The callback keeps a static `loop_counter` and writes the global atomic
flag `g_stop_sched` on error.  Its externally observable behaviour per
invocation is the sequence of events it emits plus the state mutation.
The two failure sources are the `robot.fault()` query returning true and
`robot.StreamJointPosition` throwing; both land in the catch block, which
logs the error and sets the flag. -/

/-- Observable events of one PeriodicTask invocation in
test_timeliness_monitor.cpp. -/
inductive TMEvent
  /-- Issuing of the StreamJointPosition robot command (the attempt; in the
  throwing case control leaves the try block during this call). -/
  | streamCmd
  /-- Emission of the simulated-loop-delay warning at loop_counter 5000. -/
  | warnDelay
  /-- Sleeping for 995 microseconds after loop_counter exceeds 5000. -/
  | delay995
  /-- Logging of the caught exception in the catch block. -/
  | errorLog
deriving DecidableEq, Repr

/-- State mutated by PeriodicTask in test_timeliness_monitor.cpp: the
static loop_counter and the global g_stop_sched flag. -/
structure TMState where
  loop_counter : Nat
  g_stop_sched : Bool
deriving DecidableEq, Repr

/-- Embedding of PeriodicTask (test_timeliness_monitor.cpp lines 29-60).
`fault` is the value returned by robot.fault(), `streamThrows` tells
whether robot.StreamJointPosition throws on this invocation. -/
def tmPeriodicTask (fault streamThrows : Bool) (s : TMState) :
    TMState × List TMEvent :=
  if fault then
    -- throw before any robot command; catch: log the error, set the flag
    ({ s with g_stop_sched := true }, [TMEvent.errorLog])
  else if streamThrows then
    -- the stream command is issued and throws; catch: log, set the flag
    ({ s with g_stop_sched := true }, [TMEvent.streamCmd, TMEvent.errorLog])
  else
    let evs :=
      TMEvent.streamCmd ::
        (if s.loop_counter = 5000 then [TMEvent.warnDelay]
         else if s.loop_counter > 5000 then [TMEvent.delay995] else [])
    ({ s with loop_counter := s.loop_counter + 1 }, evs)

/-! ## Spec-modelled scheduler

The flexiv::Scheduler implementation is not part of the repository sources
(only flexiv/scheduler.h callers are), so the scheduler is modelled from
the specification, sections 3, 4.1, 4.2 and 7. -/

/-- Modelled from the spec: the missing flexiv::Scheduler task descriptor
(spec section 3): name, period in milliseconds, logical priority.  The
callback is kept abstract; registry claims do not depend on it.  The
priority is an integer so that the spec range check against
[0, max_priority] is meaningful. -/
structure Task where
  name : String
  period_ms : Nat
  priority : Int
deriving DecidableEq, Repr

/-- Modelled from the spec: the configuration-error taxonomy of the missing
AddTask implementation (spec section 7), identifying the offending field. -/
inductive ConfigurationError
  /-- period_ms below 1. -/
  | badPeriod
  /-- priority outside [0, max_priority]. -/
  | badPriority
  /-- name duplicates an already registered task. -/
  | duplicateName
  /-- registration attempted while the scheduler is running. -/
  | alreadyRunning
deriving DecidableEq, Repr

/-- Modelled from the spec: per-task TimelinessState (spec section 3),
reset on Start. -/
structure TimelinessState where
  last_fire_time : Nat
  consecutive_late_count : Nat
  cumulative_late_count : Nat
deriving DecidableEq, Repr

/-- Modelled from the spec: the TimelinessState values every task holds at
a fresh Start. -/
def initTimelinessState : TimelinessState :=
  { last_fire_time := 0, consecutive_late_count := 0,
    cumulative_late_count := 0 }

/-- Modelled from the spec: the missing flexiv::Scheduler state (spec
sections 3 and 4.2): the highest honorable priority, the registry of
tasks, the per-task timeliness states, the live execution contexts (one
OS thread per task, identified by task index), and the running flag. -/
structure Scheduler where
  max_priority : Int
  tasks : List Task
  tstates : List TimelinessState
  contexts : List Nat
  running : Bool
deriving DecidableEq, Repr

/-- Modelled from the spec: a freshly constructed, idle scheduler with an
empty registry. -/
def mkScheduler (maxp : Int) : Scheduler :=
  { max_priority := maxp, tasks := [], tstates := [], contexts := [],
    running := false }

/-- Modelled from the spec: the missing Scheduler.AddTask (spec sections
4.1 and 7).  On a violated precondition it reports the ConfigurationError
for the offending field and leaves the scheduler unmodified (the returned
state is the input state); on success it appends the task to the registry
and creates no execution context. -/
def AddTask (s : Scheduler) (name : String) (period_ms : Nat)
    (priority : Int) : Scheduler × Option ConfigurationError :=
  if s.running then
    (s, some ConfigurationError.alreadyRunning)
  else if period_ms < 1 then
    (s, some ConfigurationError.badPeriod)
  else if priority < 0 ∨ s.max_priority < priority then
    (s, some ConfigurationError.badPriority)
  else if (s.tasks.map Task.name).contains name then
    (s, some ConfigurationError.duplicateName)
  else
    ({ s with
        tasks := s.tasks ++ [{ name := name, period_ms := period_ms,
                               priority := priority }],
        tstates := s.tstates ++ [initTimelinessState] },
     none)

/-- Modelled from the spec: the missing Scheduler.Start (spec section
4.2): transitions to active, creates one execution context per registered
task and re-initializes every TimelinessState. -/
def Start (s : Scheduler) : Scheduler :=
  { s with
      running := true,
      tstates := s.tasks.map fun _ => initTimelinessState,
      contexts := List.range s.tasks.length }

/-- Modelled from the spec: the missing Scheduler.Stop (spec section 4.2):
signals every execution context to exit, joins and releases all threads,
and leaves the scheduler idle.  Registered tasks stay in the registry. -/
def Stop (s : Scheduler) : Scheduler :=
  { s with running := false, contexts := [] }

/-- Modelled from the spec: the missing Scheduler destructor (spec section
4.2): destruction while active performs an implicit Stop on every exit
path. -/
def destructorCleanup (s : Scheduler) : Scheduler :=
  Stop s

/-- Modelled from the spec: one timer beat of the scheduler engine (spec
sections 4.2 and 5).  When the scheduler is active, each live execution
context fires and invokes the callback of its task; when idle, nothing
fires.  The result lists the indices of the tasks whose callbacks were
invoked on this beat. -/
def tick (s : Scheduler) : Scheduler × List Nat :=
  if s.running then (s, s.contexts) else (s, [])

/-- Modelled from the spec: the callback invocations emitted over n
consecutive timer beats. -/
def tickTrace : Scheduler → Nat → List Nat
  | _, 0 => []
  | s, n + 1 => (tick s).2 ++ tickTrace (tick s).1 n

/-- Modelled from the spec: how the engine invokes a callback (spec
section 6): the callback is a state transformer whose returned value, if
any, is discarded; the engine keeps only the state effect and never
inspects the returned value. -/
def invokeCallback {σ ρ : Type} (cb : σ → σ × ρ) (st : σ) : σ :=
  (cb st).1

/-! ## Spec-modelled single-task execution context (overlap policy)

Firings of one task are modelled at period granularity: a beat is one
period boundary.  A callback invocation started at a beat occupies the
context for its execution time measured in periods; a firing that arrives
while the previous invocation is still running is dropped and counted as a
late beat (drop-and-count-as-late, spec sections 3 and 5). -/

/-- Modelled from the spec: the state of one task execution context:
the number of callback invocations currently in flight, the periods left
until the current invocation returns (0 when idle), and the number of
beats dropped as late. -/
structure TaskRun where
  inFlight : Nat
  remaining : Nat
  lateCount : Nat
deriving DecidableEq, Repr

/-- Modelled from the spec: the context state before the first firing. -/
def initTaskRun : TaskRun :=
  { inFlight := 0, remaining := 0, lateCount := 0 }

/-- Modelled from the spec: the passage of one period since the previous
firing: the invocation in progress advances by one period and completes
when its time is up. -/
def beatProgress (r : TaskRun) : TaskRun :=
  if r.remaining ≤ 1 then { r with inFlight := 0, remaining := 0 }
  else { r with remaining := r.remaining - 1 }

/-- Modelled from the spec: one firing of the execution context.
execTime is the duration, in periods, of the callback invocation that
would start at this firing.  After the progress step, the firing either
starts a fresh invocation (context idle) or is dropped and counted late
(context still busy) — it is never queued. -/
def beat (execTime : Nat) (r : TaskRun) : TaskRun :=
  if (beatProgress r).inFlight = 0 then
    { beatProgress r with inFlight := 1, remaining := execTime }
  else
    { beatProgress r with
        lateCount := (beatProgress r).lateCount + 1 }

/-- Modelled from the spec: the context state after a sequence of firings
whose prospective callback durations are listed in ets. -/
def runBeats (ets : List Nat) : TaskRun :=
  ets.foldl (fun r et => beat et r) initTaskRun

/-! ## Spec-modelled timeliness monitor and fault escalation

The monitor classifies each beat of a task as on-time or late, keeps the
consecutive-late count, warns when lateness is first observed, and raises
a fatal TimelinessFault exactly when the consecutive-late count first
exceeds the configured ceiling (spec sections 4.3 and 7). -/

/-- Modelled from the spec: the classification of one beat. -/
inductive Beat
  /-- Delta within tolerance. -/
  | onTime
  /-- Delta exceeded tolerance. -/
  | late
deriving DecidableEq, Repr

/-- Modelled from the spec: events the monitor reports to the owner. -/
inductive MonEvent
  /-- TimelinessWarning, logged when lateness is first observed. -/
  | warn
  /-- Fatal TimelinessFault raised at a threshold crossing. -/
  | fault
deriving DecidableEq, Repr

/-- Modelled from the spec: the monitor bookkeeping for one task. -/
structure MonState where
  consecutive : Nat
  cumulative : Nat
  warned : Bool
deriving DecidableEq, Repr

/-- Modelled from the spec: monitor state at Start. -/
def initMonState : MonState :=
  { consecutive := 0, cumulative := 0, warned := false }

/-- Modelled from the spec: the monitor processing one classified beat
with consecutive-late ceiling ceil.  An on-time beat resets the
consecutive count; a late beat increments both counters, emits the
one-time warning if lateness was never observed before, and emits a fault
exactly when the consecutive count first exceeds the ceiling. -/
def monStep (ceil : Nat) (st : MonState) : Beat → MonState × List MonEvent
  | Beat.onTime => ({ st with consecutive := 0 }, [])
  | Beat.late =>
      let warnEvs := if st.warned then [] else [MonEvent.warn]
      let c := st.consecutive + 1
      let faultEvs := if c = ceil + 1 then [MonEvent.fault] else []
      ({ consecutive := c, cumulative := st.cumulative + 1, warned := true },
       warnEvs ++ faultEvs)

/-- Modelled from the spec: the monitor folded over a beat trace from an
arbitrary state, collecting emitted events in order. -/
def monRunFrom (ceil : Nat) (st : MonState) :
    List Beat → MonState × List MonEvent
  | [] => (st, [])
  | b :: bs =>
      let r := monStep ceil st b
      let rest := monRunFrom ceil r.1 bs
      (rest.1, r.2 ++ rest.2)

/-- Modelled from the spec: the monitor run from a fresh Start. -/
def monRun (ceil : Nat) (bs : List Beat) : MonState × List MonEvent :=
  monRunFrom ceil initMonState bs

/-- Spec-worded consecutive-late run lengths: the length of the late run
ending at each beat of the trace, given the run length before the trace. -/
def lateRunLens (c : Nat) : List Beat → List Nat
  | [] => []
  | Beat.onTime :: bs => 0 :: lateRunLens 0 bs
  | Beat.late :: bs => (c + 1) :: lateRunLens (c + 1) bs

/-- Spec-worded threshold-crossing count: the number of beats at which the
consecutive-late run length first exceeds the ceiling, that is, equals
ceil + 1. -/
def crossCount (ceil : Nat) (bs : List Beat) : Nat :=
  (lateRunLens 0 bs).count (ceil + 1)

/-! ## Embedding of the application wait loop (test_timeliness_monitor.cpp
main, lines 133-138)

The application blocks polling the g_stop_sched flag and, on observing it
true, calls Stop.  flags is the sequence of values the poll observes. -/

/-- Embedding of the wait-loop exit condition: whether a poll of the flag
sequence ever observes true. -/
def waitLoopExits : List Bool → Bool
  | [] => false
  | b :: bs => if b then true else waitLoopExits bs

/-- Embedding of main lines 133-138: poll until the flag is observed true,
then call Stop; while the flag is never observed true the application is
still blocked and the scheduler is untouched. -/
def mainPollAndStop (s : Scheduler) (flags : List Bool) : Scheduler :=
  if waitLoopExits flags then Stop s else s

/-! ## Theorems -/

/-- Helper: the first 5000 invocations of highPriorityTask from a fresh
counter leave the counter at the invocation number and the flag false. -/
theorem hpCounterStep_iterate_le :
    ∀ n : Nat, n ≤ 5000 → hpCounterStep^[n] (0, false) = (n, false) := by
  intro n
  induction n with
  | zero => intro _; rfl
  | succ k ih =>
      intro h
      rw [Function.iterate_succ_apply', ih (Nat.le_of_succ_le h)]
      have hk : ¬(k + 1 > 5000) := by omega
      simp [hpCounterStep, hk]

/-- C9: in test_scheduler.cpp highPriorityTask, starting from loop_counter
0 and g_stop_sched false, the first 5000 invocations leave g_stop_sched
false (the counter holding the invocation number), and the 5001st
invocation, where the pre-incremented counter first exceeds 5000, sets
g_stop_sched true and resets loop_counter to 0 — so after the restart
clears the flag, the state is again (0, false) and every subsequent run
also takes exactly 5001 invocations to signal stop. -/
theorem hp_task_signals_after_5001 :
    (∀ n : Nat, n ≤ 5000 → hpCounterStep^[n] (0, false) = (n, false)) ∧
    hpCounterStep^[5001] (0, false) = (0, true) := by
  refine ⟨hpCounterStep_iterate_le, ?_⟩
  have h1 : (5001 : Nat) = 5000 + 1 := rfl
  rw [h1, Function.iterate_succ_apply',
      hpCounterStep_iterate_le 5000 (Nat.le_refl 5000)]
  simp [hpCounterStep]

/-- Witness for C9 at the concrete invocation count 2. -/
theorem hp_task_signals_after_5001_witness :
    hpCounterStep^[2] (0, false) = (2, false) :=
  hp_task_signals_after_5001.1 2 (by decide)

/-- C8: in test_scheduler.cpp, every access to the shared
g_data.measured_interval in highPriorityTask and lowPriorityTask happens
while g_mutex is held, and each critical section does exactly the one
copy of the value and no other work. -/
theorem shared_data_lock_discipline :
    lockDisciplined highPriorityTaskActions = true ∧
    lockDisciplined lowPriorityTaskActions = true := by
  decide

/-- C10: in test_timeliness_monitor.cpp PeriodicTask, an invocation on
which robot.fault() is true or StreamJointPosition throws leaves
loop_counter unchanged, sets g_stop_sched, logs the error and issues no
robot command beyond the one that failed (on a fault, none at all); a
non-throwing invocation increments loop_counter by exactly one, emits the
delay warning exactly when loop_counter is 5000 and the 995 microsecond
delay exactly when loop_counter exceeds 5000. -/
theorem tm_periodic_task_behaviour :
    ∀ (fault streamThrows : Bool) (s : TMState),
      (fault = true ∨ streamThrows = true →
        (tmPeriodicTask fault streamThrows s).1.loop_counter =
          s.loop_counter ∧
        (tmPeriodicTask fault streamThrows s).1.g_stop_sched = true ∧
        (fault = true →
          (tmPeriodicTask fault streamThrows s).2 = [TMEvent.errorLog]) ∧
        (fault = false →
          (tmPeriodicTask fault streamThrows s).2 =
            [TMEvent.streamCmd, TMEvent.errorLog])) ∧
      (fault = false → streamThrows = false →
        (tmPeriodicTask fault streamThrows s).1.loop_counter =
          s.loop_counter + 1 ∧
        (tmPeriodicTask fault streamThrows s).1.g_stop_sched =
          s.g_stop_sched ∧
        (TMEvent.warnDelay ∈ (tmPeriodicTask fault streamThrows s).2 ↔
          s.loop_counter = 5000) ∧
        (TMEvent.delay995 ∈ (tmPeriodicTask fault streamThrows s).2 ↔
          5000 < s.loop_counter)) := by
  intro fault streamThrows s
  cases fault with
  | true =>
      exact ⟨fun _ => ⟨rfl, rfl, fun _ => rfl, fun h => Bool.noConfusion h⟩,
             fun h _ => Bool.noConfusion h⟩
  | false =>
      cases streamThrows with
      | true =>
          exact ⟨fun _ =>
              ⟨rfl, rfl, fun h => Bool.noConfusion h, fun _ => rfl⟩,
            fun _ h => Bool.noConfusion h⟩
      | false =>
          refine ⟨fun h => ?_, fun _ _ => ⟨rfl, rfl, ?_, ?_⟩⟩
          · rcases h with h | h <;> exact Bool.noConfusion h
          · rcases Nat.lt_trichotomy s.loop_counter 5000 with hc | hc | hc
            · have h1 : s.loop_counter ≠ 5000 := by omega
              have h2 : ¬ s.loop_counter > 5000 := by omega
              simp [tmPeriodicTask, h1, h2]
            · simp [tmPeriodicTask, hc]
            · have h1 : s.loop_counter ≠ 5000 := by omega
              simp [tmPeriodicTask, h1, hc]
          · rcases Nat.lt_trichotomy s.loop_counter 5000 with hc | hc | hc
            · have h1 : s.loop_counter ≠ 5000 := by omega
              have h2 : ¬ s.loop_counter > 5000 := by omega
              simp [tmPeriodicTask, h1, h2]
            · simp [tmPeriodicTask, hc]
            · have h1 : s.loop_counter ≠ 5000 := by omega
              simp [tmPeriodicTask, h1, hc]

/-- C1: AddTask fails with a ConfigurationError exactly when the period
is below 1 millisecond, the priority lies outside [0, max_priority], the
name duplicates a registered task, or the scheduler is running; on
failure the scheduler is returned exactly as it was, and on success the
task is appended to the registry while the execution contexts (threads),
the running flag and max_priority are untouched. -/
theorem addtask_contract :
    ∀ (s : Scheduler) (name : String) (period_ms : Nat) (priority : Int),
      ((AddTask s name period_ms priority).2.isSome = true ↔
        (s.running = true ∨ period_ms < 1 ∨ priority < 0 ∨
         s.max_priority < priority ∨
         (s.tasks.map Task.name).contains name = true)) ∧
      ((AddTask s name period_ms priority).2.isSome = true →
        (AddTask s name period_ms priority).1 = s) ∧
      ((AddTask s name period_ms priority).2 = none →
        (AddTask s name period_ms priority).1.tasks =
          s.tasks ++ [{ name := name, period_ms := period_ms,
                        priority := priority }] ∧
        (AddTask s name period_ms priority).1.contexts = s.contexts ∧
        (AddTask s name period_ms priority).1.running = s.running ∧
        (AddTask s name period_ms priority).1.max_priority =
          s.max_priority) := by
  intro s name period_ms priority
  unfold AddTask
  split_ifs with h1 h2 h3 h4 <;> simp_all
  tauto

/-- Witness for C1: registering a duplicate name on a concrete scheduler
fails and returns the scheduler unchanged. -/
theorem addtask_contract_witness :
    (AddTask (AddTask (mkScheduler 45) "HP periodic" 1 45).1
        "HP periodic" 1000 0).2.isSome = true ∧
    (AddTask (AddTask (mkScheduler 45) "HP periodic" 1 45).1
        "HP periodic" 1000 0).1 =
      (AddTask (mkScheduler 45) "HP periodic" 1 45).1 :=
  ⟨by decide,
   (addtask_contract (AddTask (mkScheduler 45) "HP periodic" 1 45).1
      "HP periodic" 1000 0).2.1 (by decide)⟩

/-- Helper: one firing preserves the at-most-one-in-flight bound. -/
theorem beat_inFlight_le_one (et : Nat) (r : TaskRun)
    (h : r.inFlight ≤ 1) : (beat et r).inFlight ≤ 1 := by
  unfold beat beatProgress
  split_ifs <;> simp_all

/-- Helper: the at-most-one-in-flight bound survives any firing sequence. -/
theorem foldl_beat_inFlight_le_one :
    ∀ (ets : List Nat) (r : TaskRun), r.inFlight ≤ 1 →
      (ets.foldl (fun r et => beat et r) r).inFlight ≤ 1 := by
  intro ets
  induction ets with
  | nil => intro r h; exact h
  | cons et ets ih =>
      intro r h
      exact ih (beat et r) (beat_inFlight_le_one et r h)

/-- C2: in the drop-and-count-as-late execution model, at most one
invocation of a task callback is ever in flight over any firing sequence,
and a firing that arrives while the previous invocation still has periods
to run is dropped — the in-flight count stays at one — and is recorded as
a late beat. -/
theorem task_no_overlap :
    (∀ ets : List Nat, (runBeats ets).inFlight ≤ 1) ∧
    (∀ (et : Nat) (r : TaskRun), r.inFlight = 1 → 2 ≤ r.remaining →
      (beat et r).inFlight = 1 ∧
      (beat et r).lateCount = r.lateCount + 1) := by
  constructor
  · intro ets
    exact foldl_beat_inFlight_le_one ets initTaskRun (by decide)
  · intro et r h1 h2
    have hp : ¬ r.remaining ≤ 1 := by omega
    unfold beat beatProgress
    simp [hp, h1]

/-- Witness for C2 at a concrete busy context hit by a firing. -/
theorem task_no_overlap_witness :
    (beat 3 { inFlight := 1, remaining := 2, lateCount := 0 }).inFlight
        = 1 ∧
    (beat 3 { inFlight := 1, remaining := 2, lateCount := 0 }).lateCount
        = 0 + 1 :=
  task_no_overlap.2 3 { inFlight := 1, remaining := 2, lateCount := 0 }
    rfl (by decide)

/-- Helper: a beat of an idle scheduler changes nothing and invokes no
callback. -/
theorem tick_idle (s : Scheduler) (h : s.running = false) :
    tick s = (s, []) := by
  simp [tick, h]

/-- Helper: an idle scheduler emits no callback invocations over any
number of beats. -/
theorem tickTrace_idle :
    ∀ (n : Nat) (s : Scheduler), s.running = false →
      tickTrace s n = [] := by
  intro n
  induction n with
  | zero => intro s _; rfl
  | succ k ih =>
      intro s h
      simp only [tickTrace, tick_idle s h, List.nil_append]
      exact ih s h

/-- C3: Stop leaves the scheduler idle with every execution context
signalled, joined and released, is idempotent, and no callback invocation
of any task occurs on any beat after Stop returns. -/
theorem stop_contract :
    ∀ s : Scheduler,
      (Stop s).running = false ∧
      (Stop s).contexts = [] ∧
      Stop (Stop s) = Stop s ∧
      ∀ n : Nat, tickTrace (Stop s) n = [] := by
  intro s
  exact ⟨rfl, rfl, rfl, fun n => tickTrace_idle n (Stop s) rfl⟩

/-- Modelled from the spec: a scheduler as freshly constructed with the
same registry before its first Start (each registration appends one
initial TimelinessState, as in AddTask). -/
def freshRegistered (s : Scheduler) : Scheduler :=
  { max_priority := s.max_priority, tasks := s.tasks,
    tstates := s.tasks.map fun _ => initTimelinessState,
    contexts := [], running := false }

/-- C4: Start after a prior Stop restarts every registered task (one
execution context per task), re-initializes each TimelinessState to the
fresh-start values, and yields exactly the scheduler state a fresh first
Start of the same registry yields, hence the same periodic-invocation
behaviour. -/
theorem restart_contract :
    ∀ s : Scheduler,
      (Start (Stop s)).running = true ∧
      (Start (Stop s)).contexts = List.range s.tasks.length ∧
      (Start (Stop s)).tstates =
        s.tasks.map (fun _ => initTimelinessState) ∧
      Start (Stop s) = Start (freshRegistered s) := by
  intro s
  exact ⟨rfl, rfl, rfl, rfl⟩

/-- C7: destroying an active scheduler performs the implicit Stop: every
worker thread is terminated and joined, and no callback invocation of any
task occurs on any beat after destruction. -/
theorem destructor_contract :
    ∀ s : Scheduler, s.running = true →
      (destructorCleanup s).running = false ∧
      (destructorCleanup s).contexts = [] ∧
      ∀ n : Nat, tickTrace (destructorCleanup s) n = [] := by
  intro s _
  exact ⟨rfl, rfl, fun n => tickTrace_idle n (destructorCleanup s) rfl⟩

/-- Witness for C7 on a concrete active scheduler. -/
theorem destructor_contract_witness :
    (destructorCleanup (Start (mkScheduler 45))).running = false ∧
    tickTrace (destructorCleanup (Start (mkScheduler 45))) 3 = [] :=
  ⟨(destructor_contract (Start (mkScheduler 45)) rfl).1,
   (destructor_contract (Start (mkScheduler 45)) rfl).2.2 3⟩

/-- Helper: the application wait loop exits exactly when some poll of the
stop flag observes true. -/
theorem waitLoopExits_iff_mem :
    ∀ flags : List Bool, waitLoopExits flags = true ↔ true ∈ flags := by
  intro flags
  induction flags with
  | nil => simp [waitLoopExits]
  | cons b bs ih => cases b <;> simp [waitLoopExits, ih]

/-- C6: the engine keeps only the state effect of a callback and never
inspects a returned value (two callbacks agreeing on the state effect are
indistinguishable); a fatal condition inside the test callback reaches
the outside only through the shared g_stop_sched flag it writes; the
scheduler beat never changes the scheduler state, in particular it never
stops anything itself; and the application wait loop returns exactly when
a poll observes the flag true, upon which the application — not the
scheduler — calls Stop. -/
theorem fault_signal_contract :
    (∀ (σ ρ₁ ρ₂ : Type) (cb₁ : σ → σ × ρ₁) (cb₂ : σ → σ × ρ₂),
      (∀ st, (cb₁ st).1 = (cb₂ st).1) →
      ∀ st, invokeCallback cb₁ st = invokeCallback cb₂ st) ∧
    (∀ (fault streamThrows : Bool) (s : TMState),
      fault = true ∨ streamThrows = true →
      (tmPeriodicTask fault streamThrows s).1.g_stop_sched = true) ∧
    (∀ s : Scheduler, (tick s).1 = s) ∧
    (∀ (s : Scheduler) (flags : List Bool),
      (waitLoopExits flags = true ↔ true ∈ flags) ∧
      (waitLoopExits flags = true → mainPollAndStop s flags = Stop s) ∧
      (waitLoopExits flags = false → mainPollAndStop s flags = s)) := by
  refine ⟨?_, ?_, ?_, ?_⟩
  · intro σ ρ₁ ρ₂ cb₁ cb₂ h st
    simp [invokeCallback, h st]
  · intro fault streamThrows s h
    rcases h with h | h
    · subst h; rfl
    · subst h; cases fault <;> rfl
  · intro s
    unfold tick
    split_ifs <;> rfl
  · intro s flags
    exact ⟨waitLoopExits_iff_mem flags,
      fun h => by simp [mainPollAndStop, h],
      fun h => by simp [mainPollAndStop, h]⟩

/-- Witness for C6: a concrete faulting invocation raises the flag, and a
concrete poll sequence observing true makes the application call Stop. -/
theorem fault_signal_contract_witness :
    (tmPeriodicTask true false
      { loop_counter := 0, g_stop_sched := false }).1.g_stop_sched
        = true ∧
    mainPollAndStop (Start (mkScheduler 45)) [false, true] =
      Stop (Start (mkScheduler 45)) :=
  ⟨fault_signal_contract.2.1 true false
      { loop_counter := 0, g_stop_sched := false } (Or.inl rfl),
   (fault_signal_contract.2.2.2 (Start (mkScheduler 45))
      [false, true]).2.1 (by decide)⟩

/-- Helper: the fault count of a monitor run equals the number of beats
at which the consecutive-late run length first exceeds the ceiling. -/
theorem monRunFrom_fault_count (ceil : Nat) :
    ∀ (bs : List Beat) (st : MonState),
      ((monRunFrom ceil st bs).2).count MonEvent.fault =
        (lateRunLens st.consecutive bs).count (ceil + 1) := by
  intro bs
  induction bs with
  | nil => intro st; rfl
  | cons b bs ih =>
      intro st
      cases b with
      | onTime =>
          simp [monRunFrom, monStep, lateRunLens, List.count_cons, ih]
      | late =>
          by_cases hw : st.warned <;>
            by_cases hf : st.consecutive + 1 = ceil + 1 <;>
              simp [monRunFrom, monStep, lateRunLens, List.count_cons,
                List.count_append, hw, hf, ih] <;>
              omega

/-- Helper: run from a state where lateness was never observed: either no
event is emitted at all, or the first emitted event is the warning. -/
theorem monRunFrom_head_warn (ceil : Nat) :
    ∀ (bs : List Beat) (st : MonState), st.warned = false →
      (monRunFrom ceil st bs).2 = [] ∨
      ((monRunFrom ceil st bs).2).head? = some MonEvent.warn := by
  intro bs
  induction bs with
  | nil => intro st _; exact Or.inl rfl
  | cons b bs ih =>
      intro st h
      cases b with
      | onTime =>
          have h0 := ih { st with consecutive := 0 } h
          simpa [monRunFrom, monStep] using h0
      | late =>
          right
          simp [monRunFrom, monStep, h]

/-- Helper: from a state where lateness was never observed, the warning
is emitted exactly when the trace contains a late beat. -/
theorem monRunFrom_warn_iff (ceil : Nat) :
    ∀ (bs : List Beat) (st : MonState), st.warned = false →
      (MonEvent.warn ∈ (monRunFrom ceil st bs).2 ↔ Beat.late ∈ bs) := by
  intro bs
  induction bs with
  | nil => intro st _; simp [monRunFrom]
  | cons b bs ih =>
      intro st h
      cases b with
      | onTime =>
          have h0 := ih { st with consecutive := 0 } h
          simpa [monRunFrom, monStep] using h0
      | late =>
          simp [monRunFrom, monStep, h]

/-- C5: over any classified beat trace from a fresh Start, the monitor
emits the one-time warning exactly when lateness is observed and emits
it before any other event (in particular before any fault), and it
raises a fault exactly once per threshold crossing — the number of fault
events equals the number of beats at which the consecutive-late run
length first exceeds the configured ceiling, not the number of late
beats. -/
theorem timeliness_escalation_contract :
    ∀ (ceil : Nat) (bs : List Beat),
      (MonEvent.warn ∈ (monRun ceil bs).2 ↔ Beat.late ∈ bs) ∧
      ((monRun ceil bs).2 ≠ [] →
        ((monRun ceil bs).2).head? = some MonEvent.warn) ∧
      ((monRun ceil bs).2).count MonEvent.fault = crossCount ceil bs := by
  intro ceil bs
  refine ⟨monRunFrom_warn_iff ceil bs initMonState rfl, ?_, ?_⟩
  · intro h
    rcases monRunFrom_head_warn ceil bs initMonState rfl with h0 | h0
    · exact absurd h0 h
    · exact h0
  · exact monRunFrom_fault_count ceil bs initMonState

/-- Witness for C5 on a concrete trace of four late beats with ceiling
two: the first event is the warning and one single fault is raised. -/
theorem timeliness_escalation_contract_witness :
    ((monRun 2 [Beat.late, Beat.late, Beat.late, Beat.late]).2).head?
        = some MonEvent.warn ∧
    ((monRun 2 [Beat.late, Beat.late, Beat.late, Beat.late]).2).count
        MonEvent.fault
      = crossCount 2 [Beat.late, Beat.late, Beat.late, Beat.late] :=
  ⟨(timeliness_escalation_contract 2
      [Beat.late, Beat.late, Beat.late, Beat.late]).2.1 (by decide),
   (timeliness_escalation_contract 2
      [Beat.late, Beat.late, Beat.late, Beat.late]).2.2⟩

/-- Witness for C10 at a concrete faulting invocation. -/
theorem tm_periodic_task_behaviour_witness :
    (tmPeriodicTask true false
      { loop_counter := 7, g_stop_sched := false }).1.loop_counter = 7 ∧
    (tmPeriodicTask true false
      { loop_counter := 7, g_stop_sched := false }).1.g_stop_sched = true :=
  ⟨((tm_periodic_task_behaviour true false
      { loop_counter := 7, g_stop_sched := false }).1 (Or.inl rfl)).1,
   ((tm_periodic_task_behaviour true false
      { loop_counter := 7, g_stop_sched := false }).1 (Or.inl rfl)).2.1⟩

end FlexivRDK
